import Mathlib

/-!
Verification development for the nutritional-analysis repository.

The development shallowly embeds the two source files:

* `label_extraction.py` — the nutrient field parser
  (`extract_nutritional_info`): a table of regular-expression patterns is
  matched against OCR text with Python `re.search` semantics (leftmost
  match wins; at a given position, earlier alternatives are preferred;
  greedy/lazy quantifiers), the first non-empty capturing group becomes
  the raw value, and a secondary pattern splits the raw value into a
  weight-with-unit token and an optional percentage token.

* `food_classifier.py` — the portion-weight estimator
  (`estimate_weight`), and the nutrient lookup-and-scaling client
  (`get_nutritional_facts`) with its Python `or` fallbacks, precondition
  check, response handling and per-100g linear rescale with two-decimal
  rounding, plus the retry configuration of its HTTP session.

All the regular expressions of the source use quantifiers over single
character classes only, so the backtracking matcher below recurses
structurally on the pattern and is total.
-/

set_option maxRecDepth 20000

namespace Nutrition

/-! ## Regular-expression engine (Python `re.search` semantics) -/

/-- Abstract syntax of the fragment of Python regular expressions used by
`label_extraction.py`.  Every quantifier of the source patterns ranges over a
single character class, which the constructors `starG` (greedy `*`) and
`starL` (lazy `*?`) capture directly; `+` and `+?` are encoded as a class
followed by a star. -/
inductive RE where
  | eps : RE
  | cls : (Char → Bool) → RE
  | seq : RE → RE → RE
  | alt : RE → RE → RE
  | starG : (Char → Bool) → RE
  | starL : (Char → Bool) → RE
  | grp : Nat → RE → RE

/-- Captured groups of a match: group index paired with the captured text. -/
abbrev Caps := List (Nat × List Char)

/-- Length of the maximal prefix of `s` whose characters satisfy `p`:
the candidate consumption lengths of a star over the class `p`. -/
def countRun (p : Char → Bool) : List Char → Nat
  | [] => 0
  | c :: t => if p c then countRun p t + 1 else 0

/-- All ways a pattern can match a prefix of `s`, as pairs of consumed
length and captured groups, in Python backtracking priority order: the
head of the list is the match `re.search` commits to at this position. -/
def mres : RE → List Char → List (Nat × Caps)
  | .eps, _ => [(0, [])]
  | .cls _, [] => []
  | .cls p, c :: _ => if p c then [(1, [])] else []
  | .alt a b, s => mres a s ++ mres b s
  | .seq a b, s =>
      (mres a s).flatMap (fun pr =>
        (mres b (s.drop pr.1)).map (fun qr => (pr.1 + qr.1, pr.2 ++ qr.2)))
  | .starG p, s => ((List.range (countRun p s + 1)).reverse).map (fun i => (i, []))
  | .starL p, s => (List.range (countRun p s + 1)).map (fun i => (i, []))
  | .grp i a, s => (mres a s).map (fun pr => (pr.1, pr.2 ++ [(i, s.take pr.1)]))

/-- Python `re.search`: scan start positions left to right and commit to the
first position where the pattern matches; return that match's captures. -/
def rsearch (r : RE) : List Char → Option Caps
  | [] => ((mres r []).head?).map (fun pr => pr.2)
  | c :: t =>
      match (mres r (c :: t)).head? with
      | some pr => some pr.2
      | none => rsearch r t

/-- The capture of group `i`, if that group participated in the match. -/
def capLookup (i : Nat) (caps : Caps) : Option (List Char) :=
  (caps.find? (fun pr => pr.1 = i)).map (fun pr => pr.2)

/-- Python `next((m for m in match.groups() if m), None)`: the first group
(in index order) that participated and captured non-empty text. -/
def firstTruthyGroup (ng : Nat) (caps : Caps) : Option String :=
  (List.range ng).findSome? (fun i =>
    match capLookup (i + 1) caps with
    | some c => if c = [] then none else some (String.mk c)
    | none => none)

/-! ## The pattern table of `extract_nutritional_info` -/

/-- Single literal character. -/
def chr (c : Char) : RE := .cls (fun x => x == c)

/-- Concatenation of a list of patterns. -/
def rseq (l : List RE) : RE := l.foldr RE.seq RE.eps

/-- Literal string (each character matched case-sensitively, as in the
source, which compiles its patterns without `re.IGNORECASE`). -/
def rlit (s : String) : RE := rseq (s.toList.map chr)

/-- Greedy `?`. -/
def ropt (r : RE) : RE := .alt r .eps

/-- Python `\d` (ASCII digits suffice for the label texts in scope). -/
def isDigitC (c : Char) : Bool := c.isDigit

/-- Python `\s`. -/
def isSpaceC (c : Char) : Bool :=
  c == ' ' || c == '\t' || c == '\n' || c == '\r' || c == '\x0b' || c == '\x0c'

/-- Python `.` (any character except a newline; the source compiles without
`re.DOTALL`). -/
def isDotC (c : Char) : Bool := !(c == '\n')

/-- The character class `[^\n%]`. -/
def notNlPct (c : Char) : Bool := !(c == '\n') && !(c == '%')

/-- `\d+`. -/
def dplus : RE := .seq (.cls isDigitC) (.starG isDigitC)

/-- `\d*`. -/
def dstar : RE := .starG isDigitC

/-- `\s*`. -/
def wstar : RE := .starG isSpaceC

/-- `\d+\.?\d*g?`, the amount group of the three fat patterns. -/
def fatAmt : RE := rseq [dplus, ropt (chr '.'), dstar, ropt (chr 'g')]

/-- `\d+mg\s*\d*%?`, the amount group of cholesterol and sodium. -/
def mgAmt : RE := rseq [dplus, rlit "mg", wstar, dstar, ropt (chr '%')]

/-- `\d+g\s*\d*%`, the amount group of total carbohydrate and fiber. -/
def gPctAmt : RE := rseq [dplus, chr 'g', wstar, dstar, chr '%']

/-- `\d+g`, the amount group of total sugars and protein. -/
def gAmt : RE := rseq [dplus, chr 'g']

/-- `([^\n%]+?\))`, the lazily-matched serving-size group body. -/
def servSizeBody : RE := rseq [.cls notNlPct, .starL notNlPct, chr ')']

/-- First alternative of the servings pattern:
`(\d+)\s*servings\s*per\s*container`. -/
def servAlt1 : RE :=
  rseq [.grp 1 dplus, wstar, rlit "servings", wstar, rlit "per", wstar, rlit "container"]

/-- Second alternative of the servings pattern: `Servings:\s*(\d+)`. -/
def servAlt2 : RE := rseq [rlit "Servings:", wstar, .grp 2 dplus]

/-- `(\d+)\s*servings\s*per\s*container|Servings:\s*(\d+)`. -/
def pat_servings : RE := .alt servAlt1 servAlt2

/-- `Serving\s*size\s*([^\n%]+?\))|Serv.\s*size:\s*([^\n%]+?\))`
(the dot after `Serv` is an unescaped any-character). -/
def pat_serving_size : RE :=
  .alt (rseq [rlit "Serving", wstar, rlit "size", wstar, .grp 1 servSizeBody])
       (rseq [rlit "Serv", .cls isDotC, wstar, rlit "size:", wstar, .grp 2 servSizeBody])

/-- `Calories\s*(\d+)`. -/
def pat_calories : RE := rseq [rlit "Calories", wstar, .grp 1 dplus]

/-- `Total\s*Fat\s*(\d+\.?\d*g?)`. -/
def pat_total_fat : RE := rseq [rlit "Total", wstar, rlit "Fat", wstar, .grp 1 fatAmt]

/-- `Saturated\s*Fat\s*(\d+\.?\d*g?)`. -/
def pat_saturated_fat : RE :=
  rseq [rlit "Saturated", wstar, rlit "Fat", wstar, .grp 1 fatAmt]

/-- `Trans\s*Fat\s*(\d+\.?\d*g?)`. -/
def pat_trans_fat : RE := rseq [rlit "Trans", wstar, rlit "Fat", wstar, .grp 1 fatAmt]

/-- `Cholesterol\s*(\d+mg\s*\d*%?)`. -/
def pat_cholesterol : RE := rseq [rlit "Cholesterol", wstar, .grp 1 mgAmt]

/-- `Sodium\s*(\d+mg\s*\d*%?)`. -/
def pat_sodium : RE := rseq [rlit "Sodium", wstar, .grp 1 mgAmt]

/-- `Total\s*(?:Carbohydrate|Carb\.)\s*(\d+g\s*\d*%)`
(`Carb\.` has an escaped, hence literal, dot). -/
def pat_total_carbohydrate : RE :=
  rseq [rlit "Total", wstar, .alt (rlit "Carbohydrate") (rlit "Carb."), wstar,
        .grp 1 gPctAmt]

/-- `Dietary\s*Fiber\s*(\d+g\s*\d*%)|Fiber\s*(\d+g\s*\d*%)`. -/
def pat_dietary_fiber : RE :=
  .alt (rseq [rlit "Dietary", wstar, rlit "Fiber", wstar, .grp 1 gPctAmt])
       (rseq [rlit "Fiber", wstar, .grp 2 gPctAmt])

/-- `Total\s*Sugars\s*(\d+g)`. -/
def pat_total_sugars : RE := rseq [rlit "Total", wstar, rlit "Sugars", wstar, .grp 1 gAmt]

/-- `Protein\s*(\d+g)`. -/
def pat_protein : RE := rseq [rlit "Protein", wstar, .grp 1 gAmt]

/-- The `patterns` dictionary of `extract_nutritional_info`, in source
order: key, compiled pattern, and number of capturing groups. -/
def patternTable : List (String × RE × Nat) :=
  [("servings_container", pat_servings, 2),
   ("serving_size", pat_serving_size, 2),
   ("calories", pat_calories, 1),
   ("total_fat", pat_total_fat, 1),
   ("saturated_fat", pat_saturated_fat, 1),
   ("trans_fat", pat_trans_fat, 1),
   ("cholesterol", pat_cholesterol, 1),
   ("sodium", pat_sodium, 1),
   ("total_carbohydrate", pat_total_carbohydrate, 1),
   ("dietary_fiber", pat_dietary_fiber, 2),
   ("total_sugars", pat_total_sugars, 1),
   ("protein", pat_protein, 1)]

/-- `(\d+\.?\d*(?:mg|g|mcg)?)\s*(\d+%|\d+% DV)?`, the `str.extract`
pattern splitting a raw value into the Weight and DV% columns. -/
def decompRE : RE :=
  rseq [.grp 1 (rseq [dplus, ropt (chr '.'), dstar,
                      ropt (.alt (rlit "mg") (.alt (rlit "g") (rlit "mcg")))]),
        wstar,
        ropt (.grp 2 (.alt (rseq [dplus, chr '%'])
                           (rseq [dplus, chr '%', rlit " DV"])))]

/-! ## The extraction pipeline -/

/-- `data[key] = next((m for m in match.groups() if m), None) if match else None`. -/
def rawOf (pat : RE) (ng : Nat) (chars : List Char) : Option String :=
  match rsearch pat chars with
  | none => none
  | some caps => firstTruthyGroup ng caps

/-- The `str.extract` step: split a raw value into the Weight and DV%
columns; an absent raw value (a pandas `None`) yields absent columns, and so
does a raw value the pattern does not match. -/
def decomposeVal : Option String → Option String × Option String
  | none => (none, none)
  | some s =>
      match rsearch decompRE s.toList with
      | none => (none, none)
      | some caps =>
          ((capLookup 1 caps).map String.mk, (capLookup 2 caps).map String.mk)

/-- One row of the transposed DataFrame returned by
`extract_nutritional_info`: the `Nutrient`, `Value`, `Weight` and `DV%`
columns. -/
structure ExtractedRow where
  nutrient : String
  value : Option String
  weight : Option String
  dv : Option String
  deriving DecidableEq, Repr

/-- The row built for one entry of the pattern table. -/
def mkRow (k : String) (pat : RE) (ng : Nat) (chars : List Char) : ExtractedRow :=
  { nutrient := k
    value := rawOf pat ng chars
    weight := (decomposeVal (rawOf pat ng chars)).1
    dv := (decomposeVal (rawOf pat ng chars)).2 }

/-- `extract_nutritional_info`: match every pattern of the table against the
OCR text and decompose each raw value into weight and percentage columns. -/
def extract_nutritional_info (text : String) : List ExtractedRow :=
  patternTable.map (fun e => mkRow e.1 e.2.1 e.2.2 text.toList)

/-! ## Two-decimal rounding (Python `round(x, 2)`) -/

/-- Round a rational to the nearest integer, ties to even — the rounding
Python's `round` applies to the (here exactly represented) value. -/
def roundHalfEven (q : ℚ) : ℤ :=
  if q - ⌊q⌋ < 1 / 2 then ⌊q⌋
  else if 1 / 2 < q - ⌊q⌋ then ⌊q⌋ + 1
  else if ⌊q⌋ % 2 = 0 then ⌊q⌋ else ⌊q⌋ + 1

/-- Python `round(x, 2)`. -/
def round2 (q : ℚ) : ℚ := (roundHalfEven (q * 100) : ℚ) / 100

/-! ## Nutrient lookup and scaling (`get_nutritional_facts`) -/

/-- `d.get(k, 0)` on a JSON object modelled as an association list. -/
def dictGet (d : List (String × ℚ)) (k : String) : ℚ :=
  ((d.find? (fun p => p.1 = k)).map (fun p => p.2)).getD 0

@[simp] theorem dictGet_nil (k : String) : dictGet [] k = 0 := rfl

@[simp] theorem dictGet_cons (k k' : String) (v : ℚ) (d : List (String × ℚ)) :
    dictGet ((k', v) :: d) k = if k' = k then v else dictGet d k := by
  by_cases h : k' = k <;> simp [dictGet, List.find?, h]

/-- The seven canonical output keys, in source order. -/
def canonicalKeys : List String :=
  ["Calories (kcal)", "Fat (g)", "Protein (g)", "Carbohydrates (g)",
   "Fiber (g)", "Sugars (g)", "Sodium (mg)"]

/-- The scaled record before the final two-decimal rounding: each per-100g
field of `nutriments` (defaulting to `0` when absent) times
`scale_factor = quantity_in_grams / 100`. -/
def scaleRaw (nutr : List (String × ℚ)) (q : ℚ) : List (String × ℚ) :=
  [("Calories (kcal)", dictGet nutr "energy_100g" * (q / 100)),
   ("Fat (g)", dictGet nutr "fat_100g" * (q / 100)),
   ("Protein (g)", dictGet nutr "proteins_100g" * (q / 100)),
   ("Carbohydrates (g)", dictGet nutr "carbohydrates_100g" * (q / 100)),
   ("Fiber (g)", dictGet nutr "fiber_100g" * (q / 100)),
   ("Sugars (g)", dictGet nutr "sugars_100g" * (q / 100)),
   ("Sodium (mg)", dictGet nutr "sodium_100g" * (q / 100))]

/-- The `nutritional_facts` dictionary: every scaled field rounded to two
decimal places. -/
def scaleRecord (nutr : List (String × ℚ)) (q : ℚ) : List (String × ℚ) :=
  (scaleRaw nutr q).map (fun p => (p.1, round2 p.2))

/-- One product object of the search response; `nutriments` models
`product.get('nutriments', {})`, so a product without the key carries `[]`. -/
structure Product where
  nutriments : List (String × ℚ)
  deriving DecidableEq

/-- The decoded JSON body of the search response: `data.get('count', 0)`
and `data['products']`. -/
structure ApiData where
  count : Nat
  products : List Product
  deriving DecidableEq

/-- Every way `get_nutritional_facts` can return to its caller. -/
inductive LookupOutcome where
  | missingInput : LookupOutcome
  | requestError : String → LookupOutcome
  | notFound : String → LookupOutcome
  | noData : String → LookupOutcome
  | crash : LookupOutcome
  | success : List (String × ℚ) → LookupOutcome
  deriving DecidableEq

/-- The response-handling part of `get_nutritional_facts`, after the
precondition check: `raise_for_status`/JSON failures surface as
`requestError`; `count == 0` as `notFound`; a first product with an empty
(or absent) `nutriments` dictionary as `noData`; an out-of-range
`data['products'][0]` as an uncaught exception (`crash`); otherwise the
scaled record is returned. -/
def lookupFacts (name : String) (q : ℚ) (res : Except String ApiData) : LookupOutcome :=
  match res with
  | .error e => .requestError e
  | .ok d =>
      if d.count = 0 then .notFound name
      else
        match d.products with
        | [] => .crash
        | p :: _ =>
            if p.nutriments = [] then .noData name
            else .success (scaleRecord p.nutriments q)

/-- Python `food_name or self.class_name`: an explicitly passed empty
string is falsy and falls through to the stored value. -/
def pyOrStr : Option String → Option String → Option String
  | some s, st => if s = "" then st else some s
  | none, st => st

/-- Python `quantity_in_grams or self.max_weight`: an explicitly passed
zero is falsy and falls through to the stored value. -/
def pyOrQ : Option ℚ → Option ℚ → Option ℚ
  | some q, st => if q = 0 then st else some q
  | none, st => st

/-- Result of a call to `get_nutritional_facts`, together with whether the
call reached `session.get`. -/
structure CallResult where
  outcome : LookupOutcome
  networkCalled : Bool
  deriving DecidableEq

/-- `get_nutritional_facts(food_name, quantity_in_grams)` on an instance
whose stored state is `storedClass`/`storedWeight`; `fetch` abstracts the
HTTP round trip (already including the session's retry behavior), returning
either the decoded JSON or the message of a `RequestException`. -/
def get_nutritional_facts (food_name : Option String) (quantity_in_grams : Option ℚ)
    (storedClass : Option String) (storedWeight : Option ℚ)
    (fetch : String → Except String ApiData) : CallResult :=
  match pyOrStr food_name storedClass, pyOrQ quantity_in_grams storedWeight with
  | some name, some q => ⟨lookupFacts name q (fetch name), true⟩
  | none, _ => ⟨.missingInput, false⟩
  | some _, none => ⟨.missingInput, false⟩

/-! ## HTTP retry configuration (lines 85–89 of the source) -/

/-- `status_forcelist=[429, 500, 502, 503, 504]`. -/
def statusForcelist : List Nat := [429, 500, 502, 503, 504]

/-- `Retry(total=5, ...)`. -/
def retryTotal : Nat := 5

/-- `backoff_factor=1`. -/
def backoffFactor : ℚ := 1

/-- `timeout=10` on `session.get`. -/
def requestTimeout : Nat := 10

/-- Modelled from the spec: the exponential-backoff delay before the n-th
retry, `backoff_factor * 2 ^ (n - 1)`; the urllib3 `Retry` implementation
this configures is external-library code, not part of `src/`. -/
def backoffDelay (n : Nat) : ℚ := backoffFactor * 2 ^ (n - 1)

/-- Terminal result of the retrying GET. -/
inductive FetchOutcome where
  | success : Nat → FetchOutcome
  | retriesExhausted : FetchOutcome
  deriving DecidableEq

/-- Modelled from the spec: the retry loop the mounted `HTTPAdapter`
performs around `session.get` — external-library code, not part of `src/`.
`resp i` is the status code of the i-th attempt; a status in the forcelist
consumes a retry when one is left and is terminal otherwise; any other
status is returned to the caller. -/
def runRetryFrom (resp : Nat → Nat) : Nat → Nat → FetchOutcome
  | attempt, left =>
      if resp attempt ∈ statusForcelist then
        match left with
        | 0 => .retriesExhausted
        | l + 1 => runRetryFrom resp (attempt + 1) l
      else .success (resp attempt)

/-- Modelled from the spec: a GET through the session, with the retry
budget `total=5` of the source configuration. -/
def runWithRetries (resp : Nat → Nat) : FetchOutcome :=
  runRetryFrom resp 0 retryTotal

/-! ## Portion weight estimation (`estimate_weight`) -/

/-- The weight attributed to one contour:
`area_cm2 = pixel_area * ratio²`, `volume_cm3 = area_cm2 * height_cm`,
`weight_g = volume_cm3 * density`. -/
def contourWeight (r hcm dens area : ℚ) : ℚ := area * r ^ 2 * hcm * dens

/-- The loop of `estimate_weight` over the detected contour areas:
`max_weight` starts at `0` and is replaced whenever a contour's weight
strictly exceeds it. -/
def estimate_weight (areas : List ℚ) (r hcm dens : ℚ) : ℚ :=
  areas.foldl
    (fun m a => if contourWeight r hcm dens a > m then contourWeight r hcm dens a else m) 0

/-! ## Helper lemmas -/

theorem roundHalfEven_intCast (n : ℤ) : roundHalfEven (n : ℚ) = n := by
  simp [roundHalfEven, Int.floor_intCast]

theorem round2_idem (q : ℚ) : round2 (round2 q) = round2 q := by
  unfold round2
  rw [div_mul_cancel₀ _ (by norm_num : (100 : ℚ) ≠ 0), roundHalfEven_intCast]

theorem roundHalfEven_nonneg (q : ℚ) (h : 0 ≤ q) : 0 ≤ roundHalfEven q := by
  have hf : 0 ≤ ⌊q⌋ := Int.floor_nonneg.mpr h
  unfold roundHalfEven
  split_ifs <;> omega

theorem round2_nonneg (q : ℚ) (h : 0 ≤ q) : 0 ≤ round2 q := by
  unfold round2
  refine div_nonneg ?_ (by norm_num)
  exact_mod_cast roundHalfEven_nonneg (q * 100) (by positivity)

theorem round2_zero : round2 0 = 0 := by
  norm_num [round2, roundHalfEven]

theorem dictGet_nonneg (nutr : List (String × ℚ)) (h : ∀ p ∈ nutr, 0 ≤ p.2)
    (k : String) : 0 ≤ dictGet nutr k := by
  unfold dictGet
  cases hf : nutr.find? (fun p => p.1 = k) with
  | none => simp
  | some p => simpa using h p (List.mem_of_find?_eq_some hf)

theorem dictGet_absent (nutr : List (String × ℚ)) (k : String)
    (h : nutr.find? (fun p => p.1 = k) = none) : dictGet nutr k = 0 := by
  simp [dictGet, h]

theorem scaleRecord_keys (nutr : List (String × ℚ)) (q : ℚ) :
    (scaleRecord nutr q).map (fun p => p.1) = canonicalKeys := rfl

theorem scaleRecord_mem (nutr : List (String × ℚ)) (q : ℚ) (p : String × ℚ)
    (hp : p ∈ scaleRecord nutr q) :
    ∃ src, p.2 = round2 (dictGet nutr src * (q / 100)) := by
  simp only [scaleRecord, scaleRaw, List.map_cons, List.map_nil, List.mem_cons,
    List.not_mem_nil, or_false] at hp
  rcases hp with h | h | h | h | h | h | h <;> subst h <;>
    exact ⟨_, rfl⟩

theorem scaleRecord_nonneg (nutr : List (String × ℚ)) (q : ℚ)
    (hn : ∀ p ∈ nutr, 0 ≤ p.2) (hq : 0 ≤ q) :
    ∀ p ∈ scaleRecord nutr q, 0 ≤ p.2 := by
  intro p hp
  obtain ⟨src, hsrc⟩ := scaleRecord_mem nutr q p hp
  rw [hsrc]
  exact round2_nonneg _ (mul_nonneg (dictGet_nonneg nutr hn src)
    (div_nonneg hq (by norm_num)))

theorem lookupFacts_ne_missing (name : String) (q : ℚ) (res : Except String ApiData) :
    lookupFacts name q res ≠ .missingInput := by
  cases res with
  | error e => simp [lookupFacts]
  | ok d =>
      simp only [lookupFacts]
      by_cases hc : d.count = 0
      · simp [hc]
      · rw [if_neg hc]
        cases hps : d.products with
        | nil => simp
        | cons p ps =>
            show ¬(if p.nutriments = [] then LookupOutcome.noData name
                   else LookupOutcome.success (scaleRecord p.nutriments q)) = .missingInput
            split <;> simp

theorem get_facts_none_name (pn : Option String) (pq : Option ℚ)
    (sn : Option String) (sq : Option ℚ) (fetch : String → Except String ApiData)
    (h : pyOrStr pn sn = none) :
    get_nutritional_facts pn pq sn sq fetch = ⟨.missingInput, false⟩ := by
  unfold get_nutritional_facts
  rw [h]

theorem get_facts_none_qty (pn : Option String) (pq : Option ℚ)
    (sn : Option String) (sq : Option ℚ) (fetch : String → Except String ApiData)
    (h : pyOrQ pq sq = none) :
    get_nutritional_facts pn pq sn sq fetch = ⟨.missingInput, false⟩ := by
  cases hn : pyOrStr pn sn <;> unfold get_nutritional_facts <;> rw [hn, h]

theorem get_facts_some (pn : Option String) (pq : Option ℚ)
    (sn : Option String) (sq : Option ℚ) (fetch : String → Except String ApiData)
    (name : String) (q : ℚ)
    (hn : pyOrStr pn sn = some name) (hq : pyOrQ pq sq = some q) :
    get_nutritional_facts pn pq sn sq fetch = ⟨lookupFacts name q (fetch name), true⟩ := by
  unfold get_nutritional_facts
  rw [hn, hq]

theorem lookupFacts_success_inv (name : String) (q : ℚ)
    (res : Except String ApiData) (facts : List (String × ℚ))
    (h : lookupFacts name q res = .success facts) :
    ∃ d p ps, res = .ok d ∧ d.count ≠ 0 ∧ d.products = p :: ps ∧
      p.nutriments ≠ [] ∧ facts = scaleRecord p.nutriments q := by
  cases res with
  | error e => simp [lookupFacts] at h
  | ok d =>
      simp only [lookupFacts] at h
      by_cases hc : d.count = 0
      · simp [hc] at h
      · rw [if_neg hc] at h
        cases hps : d.products with
        | nil => rw [hps] at h; simp at h
        | cons p ps =>
            rw [hps] at h
            simp only at h
            by_cases hnutr : p.nutriments = []
            · simp [hnutr] at h
            · rw [if_neg hnutr] at h
              simp only [LookupOutcome.success.injEq] at h
              exact ⟨d, p, ps, rfl, hc, hps, hnutr, h.symm⟩

theorem get_facts_success_inv (pn : Option String) (pq : Option ℚ)
    (sn : Option String) (sq : Option ℚ) (fetch : String → Except String ApiData)
    (facts : List (String × ℚ))
    (h : (get_nutritional_facts pn pq sn sq fetch).outcome = .success facts) :
    ∃ name q d p ps, pyOrStr pn sn = some name ∧ pyOrQ pq sq = some q ∧
      fetch name = .ok d ∧ d.count ≠ 0 ∧ d.products = p :: ps ∧
      p.nutriments ≠ [] ∧ facts = scaleRecord p.nutriments q := by
  cases hn : pyOrStr pn sn with
  | none => rw [get_facts_none_name pn pq sn sq fetch hn] at h; simp at h
  | some name =>
      cases hq : pyOrQ pq sq with
      | none => rw [get_facts_none_qty pn pq sn sq fetch hq] at h; simp at h
      | some q =>
          rw [get_facts_some pn pq sn sq fetch name q hn hq] at h
          obtain ⟨d, p, ps, hres, hc, hps, hnutr, hfacts⟩ :=
            lookupFacts_success_inv name q (fetch name) facts h
          exact ⟨name, q, d, p, ps, rfl, rfl, hres, hc, hps, hnutr, hfacts⟩

theorem extract_row_shape (t : String) (row : ExtractedRow)
    (h : row ∈ extract_nutritional_info t) :
    row.weight = (decomposeVal row.value).1 ∧ row.dv = (decomposeVal row.value).2 := by
  simp only [extract_nutritional_info, List.mem_map] at h
  obtain ⟨e, _, rfl⟩ := h
  exact ⟨rfl, rfl⟩

theorem decomposeVal_none : decomposeVal none = (none, none) := rfl

theorem decomposeVal_fail (s : String) (h : rsearch decompRE s.toList = none) :
    decomposeVal (some s) = (none, none) := by
  have h' : rsearch decompRE s.data = none := h
  simp [decomposeVal, h']

theorem rsearch_of_mres_ne_nil (r : RE) (s : List Char) (h : mres r s ≠ []) :
    rsearch r s = ((mres r s).head?).map (fun pr => pr.2) := by
  cases s with
  | nil => rfl
  | cons c t =>
      simp only [rsearch]
      cases hm : (mres r (c :: t)).head? with
      | none => exact absurd (List.head?_eq_none_iff.mp hm) h
      | some pr => rfl

theorem rsearch_skip (r : RE) (u v : List Char)
    (h : ∀ i < u.length, mres r ((u ++ v).drop i) = []) :
    rsearch r (u ++ v) = rsearch r v := by
  induction u with
  | nil => rfl
  | cons c u' ih =>
      have h0 : mres r (c :: (u' ++ v)) = [] := by
        simpa using h 0 (by simp)
      rw [List.cons_append]
      simp only [rsearch, h0, List.head?_nil]
      exact ih fun i hi => by simpa using h (i + 1) (by simp; omega)

theorem mres_alt (a b : RE) (s : List Char) :
    mres (.alt a b) s = mres a s ++ mres b s := rfl

theorem estimate_step_le (g : ℚ → ℚ) (l : List ℚ) (m : ℚ) :
    m ≤ l.foldl (fun acc a => if g a > acc then g a else acc) m := by
  induction l generalizing m with
  | nil => exact le_refl m
  | cons a t ih =>
      refine le_trans ?_ (ih (if g a > m then g a else m))
      split
      · next h => exact le_of_lt h
      · exact le_refl m

theorem estimate_step_ge_elem (g : ℚ → ℚ) (l : List ℚ) :
    ∀ m a : ℚ, a ∈ l → g a ≤ l.foldl (fun acc x => if g x > acc then g x else acc) m := by
  induction l with
  | nil => intro m a ha; cases ha
  | cons b t ih =>
      intro m a ha
      rcases List.mem_cons.mp ha with rfl | ha2
      · refine le_trans ?_ (estimate_step_le g t (if g a > m then g a else m))
        split
        · exact le_refl _
        · next h => exact le_of_not_lt h
      · exact ih _ a ha2

theorem estimate_step_mem (g : ℚ → ℚ) (l : List ℚ) (m : ℚ) :
    l.foldl (fun acc x => if g x > acc then g x else acc) m = m ∨
      l.foldl (fun acc x => if g x > acc then g x else acc) m ∈ l.map g := by
  induction l generalizing m with
  | nil => left; rfl
  | cons b t ih =>
      simp only [List.foldl_cons, List.map_cons]
      rcases ih (if g b > m then g b else m) with h | h
      · rw [h]
        by_cases hb : g b > m
        · right; rw [if_pos hb]; exact List.mem_cons_self _ _
        · left; rw [if_neg hb]
      · right; exact List.mem_cons_of_mem _ h

theorem estimate_weight_singleton (r hcm dens A : ℚ)
    (h : 0 ≤ contourWeight r hcm dens A) :
    estimate_weight [A] r hcm dens = contourWeight r hcm dens A := by
  simp only [estimate_weight, List.foldl_cons, List.foldl_nil]
  split
  · rfl
  · next hA => linarith [le_of_not_lt hA]

/-- The per-key candidate-pattern procedure as the specification words it:
try each alternative pattern of the key in priority order against the full
text, stop at the first pattern that matches anywhere, and take the first
non-empty capturing group of that match.  Stated for comparison with the
source's `rawOf`, which searches the combined alternation with leftmost
semantics. -/
def specPriorityRaw (alts : List (RE × Nat)) (chars : List Char) : Option String :=
  match alts with
  | [] => none
  | (p, ng) :: rest =>
      match rsearch p chars with
      | some caps => firstTruthyGroup ng caps
      | none => specPriorityRaw rest chars

/-- The servings-per-container pattern, decomposed into its two top-level
alternatives in source order. -/
def servAlts : List (RE × Nat) := [(servAlt1, 2), (servAlt2, 2)]

/-! ## Claim theorems -/

/-- C1, counterexample: the claim states that a missing-or-zero portion
weight makes `get_nutritional_facts` report a usage error, perform no
network call and produce no scaled record.  The code disagrees: with a
passed weight of `0` and a stored weight of `0`, the effective weight is
`some 0`, the precondition check passes, the network call is performed, and
an (all-zero) scaled record is returned. -/
theorem C1_counterexample :
    (get_nutritional_facts (some "apple") (some 0) none (some 0)
        (fun _ => .ok ⟨1, [⟨[("fat_100g", 5)]⟩]⟩)).networkCalled = true ∧
    (get_nutritional_facts (some "apple") (some 0) none (some 0)
        (fun _ => .ok ⟨1, [⟨[("fat_100g", 5)]⟩]⟩)).outcome =
      .success (scaleRecord [("fat_100g", 5)] 0) := by
  have h := get_facts_some (some "apple") (some 0) none (some 0)
      (fun _ => .ok ⟨1, [⟨[("fat_100g", 5)]⟩]⟩) "apple" 0
      (by simp [pyOrStr]) (by simp [pyOrQ])
  rw [h]
  exact ⟨rfl, by simp [lookupFacts]⟩

/-- C1, amended: `get_nutritional_facts` reports the usage error exactly
when the food name after the `or` fallback is absent or the portion weight
after the `or` fallback is absent (a zero weight is replaced by the stored
weight, not rejected); in the error case no network call is performed and
no scaled record is produced. -/
theorem C1_precondition_errors (pn : Option String) (pq : Option ℚ)
    (sn : Option String) (sq : Option ℚ) (fetch : String → Except String ApiData) :
    ((get_nutritional_facts pn pq sn sq fetch).outcome = .missingInput ↔
      (pyOrStr pn sn = none ∨ pyOrQ pq sq = none)) ∧
    ((pyOrStr pn sn = none ∨ pyOrQ pq sq = none) →
      (get_nutritional_facts pn pq sn sq fetch).networkCalled = false ∧
      ∀ facts, (get_nutritional_facts pn pq sn sq fetch).outcome ≠ .success facts) := by
  have herr : (pyOrStr pn sn = none ∨ pyOrQ pq sq = none) →
      get_nutritional_facts pn pq sn sq fetch = ⟨.missingInput, false⟩ := by
    rintro (h | h)
    · exact get_facts_none_name pn pq sn sq fetch h
    · exact get_facts_none_qty pn pq sn sq fetch h
  constructor
  · constructor
    · intro h
      by_contra hne
      push_neg at hne
      obtain ⟨hn, hq⟩ := hne
      obtain ⟨name, hname⟩ := Option.ne_none_iff_exists'.mp hn
      obtain ⟨q, hqq⟩ := Option.ne_none_iff_exists'.mp hq
      rw [get_facts_some pn pq sn sq fetch name q hname hqq] at h
      exact lookupFacts_ne_missing name q (fetch name) h
    · intro h
      rw [herr h]
  · intro h
    rw [herr h]
    exact ⟨rfl, fun facts => by simp⟩

/-- Witness for C1 (amended), at a call with no passed and no stored
inputs: the error is reported, no network call happens, and no scaled
record is produced. -/
theorem C1_precondition_errors_witness :
    (get_nutritional_facts none none none none
        (fun _ => .error "down")).networkCalled = false ∧
    ∀ facts, (get_nutritional_facts none none none none
        (fun _ => .error "down")).outcome ≠ .success facts :=
  (C1_precondition_errors none none none none (fun _ => .error "down")).2 (Or.inl rfl)

/-- C3, counterexample: doubling the portion weight does not double every
field of the rounded scaled record.  With `energy_100g = 25`, weight
`1/2 g` yields Calories `round(0.125, 2) = 0.12`, while weight
`2 * (1/2) = 1 g` yields `round(0.25, 2) = 0.25 ≠ 2 * 0.12`. -/
theorem C3_counterexample :
    ¬ (dictGet (scaleRecord [("energy_100g", 25)] (2 * (1 / 2))) "Calories (kcal)" =
       2 * dictGet (scaleRecord [("energy_100g", 25)] (1 / 2)) "Calories (kcal)") := by
  simp only [scaleRecord, scaleRaw, List.map_cons, List.map_nil]
  simp
  norm_num [round2, roundHalfEven]

/-- C3, amended: scaling is linear before the final two-decimal rounding —
each unrounded scaled field at weight `2 * w` is exactly twice the
unrounded field at `w` — and re-scaling an already-rounded scaled record by
factor 1 leaves every field unchanged. -/
theorem C3_scaling_linearity (nutr : List (String × ℚ)) (w : ℚ) :
    scaleRaw nutr (2 * w) = (scaleRaw nutr w).map (fun p => (p.1, 2 * p.2)) ∧
    ∀ p ∈ scaleRecord nutr w, round2 (p.2 * 1) = p.2 := by
  constructor
  · simp only [scaleRaw, List.map_cons, List.map_nil, List.cons.injEq, Prod.mk.injEq,
      true_and, and_true]
    refine ⟨by ring, by ring, by ring, by ring, by ring, by ring, by ring⟩
  · intro p hp
    obtain ⟨src, hsrc⟩ := scaleRecord_mem nutr w p hp
    rw [hsrc, mul_one, round2_idem]

/-- Witness for C3 (amended) at a concrete per-100g record and weight. -/
theorem C3_scaling_linearity_witness :
    scaleRaw [("energy_100g", 25)] (2 * (1 / 2)) =
      (scaleRaw [("energy_100g", 25)] (1 / 2)).map (fun p => (p.1, 2 * p.2)) ∧
    ∀ p ∈ scaleRecord [("energy_100g", 25)] (1 / 2), round2 (p.2 * 1) = p.2 :=
  C3_scaling_linearity [("energy_100g", 25)] (1 / 2)

/-- C4: the weight estimator returns the maximum contour weight
`pixel_area * ratio² * height_cm * density` (each contour weight is a lower
bound of the result, and the result is either the initial `0` or one of the
contour weights); a mask with no contours yields exactly `0`, and a mask
with exactly one contour of area `A` yields exactly
`A * ratio² * height_cm * density`. -/
theorem C4_estimate_weight_max (r hcm dens : ℚ) (areas : List ℚ) (A : ℚ)
    (hA : 0 ≤ contourWeight r hcm dens A) :
    estimate_weight [] r hcm dens = 0 ∧
    (∀ a ∈ areas, contourWeight r hcm dens a ≤ estimate_weight areas r hcm dens) ∧
    (estimate_weight areas r hcm dens = 0 ∨
      estimate_weight areas r hcm dens ∈ areas.map (contourWeight r hcm dens)) ∧
    estimate_weight [A] r hcm dens = A * r ^ 2 * hcm * dens := by
  refine ⟨rfl, ?_, ?_, ?_⟩
  · intro a ha
    exact estimate_step_ge_elem (contourWeight r hcm dens) areas 0 a ha
  · exact estimate_step_mem (contourWeight r hcm dens) areas 0
  · rw [estimate_weight_singleton r hcm dens A hA]; rfl

/-- Witness for C4 at the source's default calibration constants
(`pixel_to_cm_ratio = 0.1`, `height_cm = 2`, `density = 0.9`). -/
theorem C4_estimate_weight_max_witness :
    0 ≤ contourWeight (1 / 10) 2 (9 / 10) 100 ∧
    (estimate_weight [] (1 / 10) 2 (9 / 10) = 0 ∧
     (∀ a ∈ [(50 : ℚ), 100],
        contourWeight (1 / 10) 2 (9 / 10) a ≤
          estimate_weight [50, 100] (1 / 10) 2 (9 / 10)) ∧
     (estimate_weight [50, 100] (1 / 10) 2 (9 / 10) = 0 ∨
        estimate_weight [50, 100] (1 / 10) 2 (9 / 10) ∈
          [(50 : ℚ), 100].map (contourWeight (1 / 10) 2 (9 / 10))) ∧
     estimate_weight [100] (1 / 10) 2 (9 / 10) = 100 * (1 / 10) ^ 2 * 2 * (9 / 10)) :=
  ⟨by norm_num [contourWeight],
   C4_estimate_weight_max (1 / 10) 2 (9 / 10) [50, 100] 100 (by norm_num [contourWeight])⟩

/-- C6: every successful scaled record carries exactly the seven canonical
keys; a per-100g nutrient absent from the database record defaults to `0`
before scaling (so no field can fail and no key is missing); and — under
the ambient assumptions that the database's per-100g values and the
effective portion weight are nonnegative — every scaled value is ≥ 0. -/
theorem C6_scaled_record_invariants (pn : Option String) (pq : Option ℚ)
    (sn : Option String) (sq : Option ℚ) (fetch : String → Except String ApiData)
    (facts : List (String × ℚ))
    (hfetch : ∀ name d, fetch name = .ok d →
      ∀ prod ∈ d.products, ∀ kv ∈ prod.nutriments, 0 ≤ kv.2)
    (hq : ∀ q, pyOrQ pq sq = some q → 0 ≤ q)
    (hsucc : (get_nutritional_facts pn pq sn sq fetch).outcome = .success facts) :
    facts.map (fun p => p.1) = canonicalKeys ∧
    (∀ nutr k, nutr.find? (fun p : String × ℚ => p.1 = k) = none →
      dictGet nutr k = 0) ∧
    (∀ p ∈ facts, 0 ≤ p.2) := by
  obtain ⟨name, q, d, p, ps, hn, hq', hf, hc, hps, hnutr, hfacts⟩ :=
    get_facts_success_inv pn pq sn sq fetch facts hsucc
  subst hfacts
  refine ⟨scaleRecord_keys _ _, fun nutr k h => dictGet_absent nutr k h, ?_⟩
  refine scaleRecord_nonneg _ _ ?_ (hq q hq')
  intro kv hkv
  exact hfetch name d hf p (by rw [hps]; exact List.mem_cons_self _ _) kv hkv

/-- Witness for C6 at a concrete lookup whose database record carries only
`fat_100g = 4` and whose effective weight is the passed 50 g. -/
theorem C6_scaled_record_invariants_witness :
    (scaleRecord [("fat_100g", 4)] 50).map (fun p => p.1) = canonicalKeys ∧
    (∀ nutr k, nutr.find? (fun p : String × ℚ => p.1 = k) = none →
      dictGet nutr k = 0) ∧
    (∀ p ∈ scaleRecord [("fat_100g", 4)] 50, 0 ≤ p.2) := by
  refine C6_scaled_record_invariants (some "apple") (some 50) none none
      (fun _ => .ok ⟨1, [⟨[("fat_100g", 4)]⟩]⟩) (scaleRecord [("fat_100g", 4)] 50)
      ?_ ?_ ?_
  · rintro name d hd prod hprod kv hkv
    injection hd with hd
    subst hd
    simp only [List.mem_singleton] at hprod
    subst hprod
    simp only [List.mem_singleton] at hkv
    subst hkv
    norm_num
  · intro q hq
    simp only [pyOrQ] at hq
    rw [if_neg (by norm_num)] at hq
    injection hq with hq
    rw [← hq]
    norm_num
  · rw [get_facts_some _ _ _ _ _ "apple" 50 (by simp [pyOrStr]) (by simp [pyOrQ])]
    simp [lookupFacts]

/-- C7: a database response with `count = 0` yields the not-found outcome
and no scaled record; a response whose first product has no nutrient fields
yields the no-data outcome and no scaled record; and the two outcomes are
distinct, so the caller can tell them apart. -/
theorem C7_lookup_outcomes (name : String) (q : ℚ) (d : ApiData)
    (p : Product) (ps : List Product) :
    (d.count = 0 → lookupFacts name q (.ok d) = .notFound name ∧
      ∀ facts, lookupFacts name q (.ok d) ≠ .success facts) ∧
    (d.count ≠ 0 → d.products = p :: ps → p.nutriments = [] →
      lookupFacts name q (.ok d) = .noData name ∧
      ∀ facts, lookupFacts name q (.ok d) ≠ .success facts) ∧
    LookupOutcome.notFound name ≠ LookupOutcome.noData name := by
  refine ⟨?_, ?_, by simp⟩
  · intro hc
    have h : lookupFacts name q (.ok d) = .notFound name := by
      simp [lookupFacts, hc]
    exact ⟨h, fun facts => by rw [h]; simp⟩
  · intro hc hps hn
    have h : lookupFacts name q (.ok d) = .noData name := by
      simp only [lookupFacts]
      rw [if_neg hc, hps]
      simp [hn]
    exact ⟨h, fun facts => by rw [h]; simp⟩

/-- Witness for C7: a count-0 response and a response with one
nutriment-free product, at concrete inputs. -/
theorem C7_lookup_outcomes_witness :
    lookupFacts "apple" 50 (.ok ⟨0, []⟩) = .notFound "apple" ∧
    lookupFacts "apple" 50 (.ok ⟨3, [⟨[]⟩]⟩) = .noData "apple" ∧
    LookupOutcome.notFound "apple" ≠ LookupOutcome.noData "apple" :=
  ⟨((C7_lookup_outcomes "apple" 50 ⟨0, []⟩ ⟨[]⟩ []).1 rfl).1,
   ((C7_lookup_outcomes "apple" 50 ⟨3, [⟨[]⟩]⟩ ⟨[]⟩ []).2.1 (by norm_num) rfl rfl).1,
   (C7_lookup_outcomes "apple" 50 ⟨0, []⟩ ⟨[]⟩ []).2.2⟩

/-- C2, counterexample: for the label text `"Total Fat 8g 10%"` the
total-fat row's decomposed percentage field is absent, not `"10%"` — the
total-fat pattern `Total\s*Fat\s*(\d+\.?\d*g?)` captures only `"8g"`, so
the percentage never reaches the decomposition step. -/
theorem C2_counterexample :
    ((extract_nutritional_info "Total Fat 8g 10%").find?
        (fun r => r.nutrient = "total_fat")).map (fun r => r.dv) ≠
      some (some "10%") := by decide

/-- C2, amended: for every label text whose total-fat (or any) row has raw
value `"8g"`, the decomposed weight field is `"8g"` and the decomposed
percentage field is absent: the captured raw value contains no percent
token.  (For the text `"Total Fat 8g 10%"` itself the total-fat raw value
is `"8g"`; see the witness.) -/
theorem C2_total_fat_decomposition (t : String) (row : ExtractedRow)
    (hrow : row ∈ extract_nutritional_info t)
    (hv : row.value = some "8g") :
    row.weight = some "8g" ∧ row.dv = none := by
  obtain ⟨hw, hd⟩ := extract_row_shape t row hrow
  rw [hw, hd, hv]
  exact ⟨rfl, rfl⟩

/-- Witness for C2 (amended) at the text of the specification's example. -/
theorem C2_total_fat_decomposition_witness :
    (⟨"total_fat", some "8g", some "8g", none⟩ : ExtractedRow) ∈
        extract_nutritional_info "Total Fat 8g 10%" ∧
    ((⟨"total_fat", some "8g", some "8g", none⟩ : ExtractedRow).weight = some "8g" ∧
     (⟨"total_fat", some "8g", some "8g", none⟩ : ExtractedRow).dv = none) := by
  have hmem : (⟨"total_fat", some "8g", some "8g", none⟩ : ExtractedRow) ∈
      extract_nutritional_info "Total Fat 8g 10%" := by decide
  exact ⟨hmem, C2_total_fat_decomposition "Total Fat 8g 10%" _ hmem rfl⟩

/-- C5: for every input text the parser returns a row for every key of the
pattern table (totality is built in: the embedded parser is a function); a
row whose patterns produced no raw value has absent weight and percentage
fields as well; and a row whose raw value fails the weight/percentage
decomposition pattern has absent weight and percentage fields while the
raw value is retained in the row. -/
theorem C5_parser_totality (t : String) :
    (extract_nutritional_info t).map (fun r => r.nutrient) =
      patternTable.map (fun e => e.1) ∧
    ∀ row ∈ extract_nutritional_info t,
      (row.value = none → row.weight = none ∧ row.dv = none) ∧
      (∀ s, row.value = some s → rsearch decompRE s.toList = none →
        row.weight = none ∧ row.dv = none) := by
  constructor
  · rfl
  · intro row hrow
    obtain ⟨hw, hd⟩ := extract_row_shape t row hrow
    constructor
    · intro hv
      rw [hw, hd, hv]
      exact ⟨rfl, rfl⟩
    · intro s hv hfail
      rw [hw, hd, hv, decomposeVal_fail s hfail]
      exact ⟨rfl, rfl⟩

/-- Witness for C5: a serving-size row whose raw value `"(two cups)"`
contains no digits, so the decomposition fails and both sub-fields are
absent while the raw value is retained. -/
theorem C5_parser_totality_witness :
    ((⟨"serving_size", some "(two cups)", none, none⟩ : ExtractedRow) ∈
        extract_nutritional_info "Serving size (two cups)") ∧
    ((⟨"serving_size", some "(two cups)", none, none⟩ : ExtractedRow).weight = none ∧
     (⟨"serving_size", some "(two cups)", none, none⟩ : ExtractedRow).dv = none) := by
  have hmem : (⟨"serving_size", some "(two cups)", none, none⟩ : ExtractedRow) ∈
      extract_nutritional_info "Serving size (two cups)" := by decide
  exact ⟨hmem,
    ((C5_parser_totality "Serving size (two cups)").2 _ hmem).2 "(two cups)" rfl (by decide)⟩

/-- C8, counterexample: the claim states that a key's candidate patterns
are tried in priority order over the whole text with the earlier pattern
winning even when a later one also matches.  The code compiles the
alternatives into one alternation searched with leftmost semantics: in
`"Servings: 4 9 servings per container"` the second alternative matches at
position 0 and wins (raw `"4"`), although the first alternative also
matches later in the text (the spec's procedure would give `"9"`). -/
theorem C8_counterexample :
    rawOf pat_servings 2 ("Servings: 4 9 servings per container").toList ≠
      specPriorityRaw servAlts ("Servings: 4 9 servings per container").toList := by
  decide

/-- C8, amended: alternative order matters only among matches starting at
the same text position.  If no alternative matches before position
`u.length` and at that position only the second alternative matches, the
match is the second alternative's (even if the first alternative matches
further right); if the first alternative matches there, it takes
precedence over the second.  The raw value is the first non-empty
capturing group of the committed match, and a key with no match is
absent (`rawOf` returns `none` exactly when `rsearch` does). -/
theorem C8_leftmost_priority :
    (∀ u v : List Char, (∀ i < u.length, mres pat_servings ((u ++ v).drop i) = []) →
      mres servAlt1 v = [] → mres servAlt2 v ≠ [] →
      rsearch pat_servings (u ++ v) =
        ((mres servAlt2 v).head?).map (fun pr => pr.2)) ∧
    (∀ u v : List Char, (∀ i < u.length, mres pat_servings ((u ++ v).drop i) = []) →
      mres servAlt1 v ≠ [] →
      rsearch pat_servings (u ++ v) =
        ((mres servAlt1 v).head?).map (fun pr => pr.2)) ∧
    (∀ chars caps, rsearch pat_servings chars = some caps →
      rawOf pat_servings 2 chars = firstTruthyGroup 2 caps) ∧
    (∀ chars, rsearch pat_servings chars = none →
      rawOf pat_servings 2 chars = none) := by
  have hsplit : ∀ v : List Char,
      mres pat_servings v = mres servAlt1 v ++ mres servAlt2 v := fun _ => rfl
  refine ⟨?_, ?_, ?_, ?_⟩
  · intro u v hpre h1 h2
    rw [rsearch_skip _ u v hpre]
    have hne : mres pat_servings v ≠ [] := by
      rw [hsplit, h1]
      simpa using h2
    rw [rsearch_of_mres_ne_nil _ _ hne, hsplit, h1]
    rfl
  · intro u v hpre h1
    rw [rsearch_skip _ u v hpre]
    have hne : mres pat_servings v ≠ [] := by
      rw [hsplit]
      intro hcontra
      exact h1 (List.append_eq_nil.mp hcontra).1
    rw [rsearch_of_mres_ne_nil _ _ hne, hsplit]
    cases hm : mres servAlt1 v with
    | nil => exact absurd hm h1
    | cons pr rest => rfl
  · intro chars caps h
    simp [rawOf, h]
  · intro chars h
    simp [rawOf, h]

/-- Witness for C8 (amended): at `"X Servings: 4 9 servings per container"`
the leftmost matching position is 2, only the second alternative matches
there, and the committed raw value comes from it. -/
theorem C8_leftmost_priority_witness :
    (∀ i < ("X ".toList).length,
      mres pat_servings (("X ".toList ++
        "Servings: 4 9 servings per container".toList).drop i) = []) ∧
    rsearch pat_servings ("X ".toList ++
        "Servings: 4 9 servings per container".toList) =
      ((mres servAlt2 ("Servings: 4 9 servings per container".toList)).head?).map
        (fun pr => pr.2) := by
  have hpre : ∀ i < ("X ".toList).length,
      mres pat_servings (("X ".toList ++
        "Servings: 4 9 servings per container".toList).drop i) = [] := by
    intro i hi
    have h2 : ("X ".toList).length = 2 := rfl
    rw [h2] at hi
    interval_cases i <;> decide
  exact ⟨hpre,
    C8_leftmost_priority.1 ("X ".toList) ("Servings: 4 9 servings per container".toList)
      hpre (by decide) (by decide)⟩

/-- C9: the retry configuration of the source covers exactly the status
codes 429, 500, 502, 503, 504 with a budget of 5 retries and exponential
backoff (the delay doubles from each retry to the next); a status outside
the forcelist is returned immediately; five consecutive 503 responses
followed by a 200 succeed with the sixth response, while six consecutive
503 responses exhaust the budget and surface as a terminal failure. -/
theorem C9_retry_policy :
    runWithRetries (fun i => if i < 5 then 503 else 200) = .success 200 ∧
    runWithRetries (fun _ => 503) = .retriesExhausted ∧
    statusForcelist = [429, 500, 502, 503, 504] ∧
    retryTotal = 5 ∧
    (∀ s, s ∉ statusForcelist → runWithRetries (fun _ => s) = .success s) ∧
    (∀ n, backoffDelay (n + 2) = 2 * backoffDelay (n + 1)) := by
  refine ⟨by decide, by decide, rfl, rfl, ?_, ?_⟩
  · intro s hs
    simp [runWithRetries, runRetryFrom, hs]
  · intro n
    simp [backoffDelay, backoffFactor, pow_succ]
    ring

/-- Witness for C9 at a non-retryable status code. -/
theorem C9_retry_policy_witness :
    404 ∉ statusForcelist ∧ runWithRetries (fun _ => 404) = .success 404 :=
  ⟨by decide, C9_retry_policy.2.2.2.2.1 404 (by decide)⟩

/-- C10: in `get_nutritional_facts`, an explicitly passed empty food name
or zero weight is falsy for Python `or` and is silently replaced by the
stored value; a passed weight of 0 yields the precondition error exactly
when the stored weight is absent; otherwise the lookup proceeds with the
stored weight, and a stored weight of 0 produces an all-zero scaled
record. -/
theorem C10_python_or_fallback (pn : Option String) (pq : Option ℚ)
    (sn : Option String) (sq : Option ℚ) (fetch : String → Except String ApiData) :
    get_nutritional_facts (some "") pq sn sq fetch =
      get_nutritional_facts none pq sn sq fetch ∧
    get_nutritional_facts pn (some 0) sn sq fetch =
      get_nutritional_facts pn none sn sq fetch ∧
    get_nutritional_facts pn (some 0) sn none fetch = ⟨.missingInput, false⟩ ∧
    (∀ name q, pyOrStr pn sn = some name → sq = some q →
      get_nutritional_facts pn (some 0) sn sq fetch =
        ⟨lookupFacts name q (fetch name), true⟩) ∧
    (∀ nutr, ∀ p ∈ scaleRecord nutr 0, p.2 = 0) := by
  have hstr : pyOrStr (some "") sn = pyOrStr none sn := by simp [pyOrStr]
  have hq0 : ∀ st, pyOrQ (some 0) st = pyOrQ none st := by
    intro st; simp [pyOrQ]
  refine ⟨?_, ?_, ?_, ?_, ?_⟩
  · unfold get_nutritional_facts
    rw [hstr]
  · unfold get_nutritional_facts
    rw [hq0]
  · exact get_facts_none_qty _ _ _ _ _ (by simp [pyOrQ])
  · intro name q hn hsq
    exact get_facts_some _ _ _ _ _ name q hn (by rw [hsq]; simp [pyOrQ])
  · intro nutr p hp
    obtain ⟨src, hsrc⟩ := scaleRecord_mem nutr 0 p hp
    rw [hsrc]
    norm_num [round2_zero]

/-- Witness for C10: a passed weight of 0 with a stored weight of 55 g
proceeds to the lookup with the stored weight. -/
theorem C10_python_or_fallback_witness :
    pyOrStr (some "apple") none = some "apple" ∧
    get_nutritional_facts (some "apple") (some 0) none (some 55)
        (fun _ => .ok ⟨1, [⟨[("fat_100g", 4)]⟩]⟩) =
      ⟨lookupFacts "apple" 55
        ((fun _ : String => Except.ok (⟨1, [⟨[("fat_100g", 4)]⟩]⟩ : ApiData)) "apple"),
       true⟩ :=
  ⟨by simp [pyOrStr],
   (C10_python_or_fallback (some "apple") (some 0) none (some 55)
      (fun _ => .ok ⟨1, [⟨[("fat_100g", 4)]⟩]⟩)).2.2.2.1 "apple" 55
      (by simp [pyOrStr]) rfl⟩

end Nutrition

